import Mathlib

/-!
# Verification of the dungeonhelper retrieval-and-ranking core

Shallow embedding of the retrieval core of the repository (src/lib/rag.ts and
the similarity-search wrapper) together with theorems settling the frozen
claims about it.  Scores are modelled as rationals, JavaScript string
operations (lowercasing, substring inclusion) as executable Lean functions,
the in-memory mechanic store as an association list, and the external
embedding / similarity-search providers as function parameters.
-/

namespace DungeonHelper

/-! ## JavaScript string primitives -/

/-- The pattern list sits at the start of the text list. -/
def takesLead : List Char → List Char → Bool
  | [], _ => true
  | _ :: _, [] => false
  | p :: ps, c :: cs => p == c && takesLead ps cs

/-- The pattern list occurs somewhere inside the text list. -/
def subSomewhere : List Char → List Char → Bool
  | pat, [] => pat.isEmpty
  | pat, c :: cs => takesLead pat (c :: cs) || subSomewhere pat cs

/-- JavaScript String.prototype.includes: the second string occurs in the first. -/
def strIncludes (s pat : String) : Bool :=
  subSomewhere pat.toList s.toList

/-- JavaScript String.prototype.toLowerCase restricted to the ASCII data of this app. -/
def lowerStr (s : String) : String :=
  ⟨s.data.map Char.toLower⟩

/-! ## Data model (src/lib/types.ts zod schemas) -/

/-- MechanicSchema: individual puzzle/boss behaviour, the atomic retrievable unit. -/
structure Mechanic where
  id : String
  name : String
  description : String
  type : String
  solution : Option String := none
  tips : Option (List String) := none
  relatedMechanics : Option (List String) := none
  difficulty : Option String := none
  contestModeSpecific : Option Bool := none
  contestModeNotes : Option String := none
  deriving DecidableEq, Repr

/-- EncounterSchema: a discrete challenge with an optional sequence order. -/
structure Encounter where
  id : String
  name : String
  description : String
  type : String
  mechanics : List Mechanic
  order : Option Int := none
  deriving DecidableEq, Repr

/-- DungeonRaidSchema: the top-level collection of encounters. -/
structure DungeonRaid where
  id : String
  name : String
  type : String
  description : String
  encounters : List Encounter
  releaseDate : Option String := none
  contestModeDate : Option String := none
  deriving DecidableEq, Repr

/-- The dungeonRaid projection stored inside a SearchResult. -/
structure DungeonRaidRef where
  id : String
  name : String
  type : String
  deriving DecidableEq, Repr

/-- VectorMetadata: flattened projection persisted with each vector. -/
structure VectorMetadata where
  mechanicId : String
  mechanicName : String
  encounterId : String
  encounterName : String
  encounterOrder : Option Int := none
  dungeonRaidId : String
  dungeonRaidName : String
  dungeonRaidType : String
  mechanicType : String
  encounterType : String
  difficulty : Option String := none
  contestModeSpecific : Option Bool := none
  deriving DecidableEq, Repr

/-- One match returned by the similarity-search provider. -/
structure VectorMatch where
  id : String
  score : ℚ
  metadata : VectorMetadata
  deriving DecidableEq, Repr

/-- The filter part of SearchOptions (src/lib/vector-store.ts). -/
structure SearchFilter where
  dungeonRaidName : Option String := none
  encounterType : Option String := none
  mechanicType : Option String := none
  difficulty : Option String := none
  contestModeSpecific : Option Bool := none
  encounterOrder : Option Int := none
  deriving DecidableEq, Repr

/-- SearchOptions (src/lib/vector-store.ts). -/
structure SearchOptions where
  filter : Option SearchFilter := none
  topK : Option Nat := none
  deriving DecidableEq, Repr

/-- SearchResult (src/lib/types.ts): a scored full triple. -/
structure SearchResult where
  id : String
  score : ℚ
  mechanic : Mechanic
  encounter : Encounter
  dungeonRaid : DungeonRaidRef
  deriving DecidableEq, Repr

/-- One entry of the in-memory mechanic store. -/
structure StoredEntry where
  mechanic : Mechanic
  encounter : Encounter
  dungeonRaid : DungeonRaid
  deriving DecidableEq, Repr

/-- The mechanic store: a mapping keyed by mechanic id, modelled as an
association list in insertion order. -/
abbrev MechanicStore := List (String × StoredEntry)

/-- Map.get on the store. -/
def storeGet (store : MechanicStore) (key : String) : Option StoredEntry :=
  match store with
  | [] => none
  | (k, e) :: rest => if k == key then some e else storeGet rest key

/-! ## Query Interpreter (src/lib/rag.ts detectEncounterPosition) -/

/-- The position descriptor returned by detectEncounterPosition. -/
structure PositionSpec where
  position : String
  orderNumber : Option Int := none
  isBossQuery : Option Bool := none
  deriving DecidableEq, Repr

/-- detectEncounterPosition (src/lib/rag.ts lines 127-167): ordered
case-insensitive substring checks over position phrases. -/
def detectEncounterPosition (query : String) : Option PositionSpec :=
  let q := lowerStr query
  if strIncludes q "final boss" || strIncludes q "last boss" then
    some { position := "final", isBossQuery := some true }
  else if strIncludes q "final encounter" || strIncludes q "last encounter" then
    some { position := "final", isBossQuery := some false }
  else if strIncludes q "first boss" || strIncludes q "1st boss" then
    some { position := "first", isBossQuery := some true }
  else if strIncludes q "first encounter" || strIncludes q "1st encounter" then
    some { position := "first", orderNumber := some 1, isBossQuery := some false }
  else if strIncludes q "second boss" || strIncludes q "2nd boss" then
    some { position := "second", isBossQuery := some true }
  else if strIncludes q "second encounter" || strIncludes q "2nd encounter" then
    some { position := "second", orderNumber := some 2, isBossQuery := some false }
  else if strIncludes q "third boss" || strIncludes q "3rd boss" then
    some { position := "third", isBossQuery := some true }
  else if strIncludes q "third encounter" || strIncludes q "3rd encounter" then
    some { position := "third", orderNumber := some 3, isBossQuery := some false }
  else
    none

/-! ## Retrieval Engine (src/lib/rag.ts retrieveRelevantMechanics) -/

/-- The literal flow keywords of rag.ts lines 80 and 433. -/
def flowKeywords : List String := ["flow", "strategy", "progression", "overall encounter"]

/-- isEncounterFlowMechanic (rag.ts lines 79-83). -/
def isEncounterFlowMechanic (m : Mechanic) : Bool :=
  let nameLower := lowerStr m.name
  flowKeywords.any fun keyword => strIncludes nameLower keyword

/-- JavaScript truthiness of an optional numeric encounter order. -/
def orderTruthy : Option Int → Bool
  | some k => k != 0
  | none => false

/-- The optional dungeon-name filter of the options. -/
def dungeonNameOf (options : SearchOptions) : Option String :=
  options.filter.bind fun f => f.dungeonRaidName

/-- JavaScript truthiness of the dungeon-name filter (an empty string is falsy). -/
def dungeonTruthy (options : SearchOptions) : Bool :=
  match dungeonNameOf options with
  | some s => s != ""
  | none => false

/-- Lines 182-185: the redundant final-boss boolean flag. -/
def isFinalBossQueryOf (query : String) : Bool :=
  let q := lowerStr query
  strIncludes q "final boss" || strIncludes q "last boss" || strIncludes q "final encounter"

/-- The per-mechanic boss encounter orders collected by the first/second/third
boss branches (rag.ts lines 211-218, 224-231, 238-245): one entry per store
entry with a truthy order, not one per distinct encounter. -/
def bossOrders (store : MechanicStore) (options : SearchOptions) : List Int :=
  store.filterMap fun kv =>
    if dungeonTruthy options && kv.2.dungeonRaid.name == (dungeonNameOf options).getD "" then
      if kv.2.encounter.type == "boss" && orderTruthy kv.2.encounter.order then
        kv.2.encounter.order
      else none
    else none

/-- Stable ascending insertion into a sorted list of integers. -/
def insertAscInt (x : Int) : List Int → List Int
  | [] => [x]
  | y :: ys => if x ≤ y then x :: y :: ys else y :: insertAscInt x ys

/-- The stable numeric ascending sort of rag.ts lines 233 and 247. -/
def sortAscInt : List Int → List Int
  | [] => []
  | x :: xs => insertAscInt x (sortAscInt xs)

/-- The isBossQuery flag extracted from the position spec (rag.ts line 193). -/
def isBossQueryFlag (query : String) : Option Bool :=
  (detectEncounterPosition query).bind fun spec => spec.isBossQuery

/-- Whether the detected position equals the given keyword. -/
def posIsOf (query : String) (p : String) : Bool :=
  match detectEncounterPosition query with
  | some spec => spec.position == p
  | none => false

/-- One iteration of the store scan of rag.ts lines 199-207. -/
def maxOrderStep (query : String) (d : String) (acc : Int) (kv : String × StoredEntry) : Int :=
  if kv.2.dungeonRaid.name == d && orderTruthy kv.2.encounter.order then
    if isBossQueryFlag query == some true && kv.2.encounter.type != "boss" then acc
    else max acc (kv.2.encounter.order.getD 0)
  else acc

/-- The store scan of rag.ts lines 199-207: maximum truthy encounter order for
the collection, restricted to boss-type encounters on a boss query. -/
def maxOrderScan (store : MechanicStore) (query : String) (d : String) : Int :=
  List.foldl (maxOrderStep query d) 0 store

/-- Lines 190-252: resolve maxEncounterOrder and targetEncounterOrder from the
store before searching. Returns (maxEncounterOrder, targetEncounterOrder). -/
def preTarget (store : MechanicStore) (query : String) (options : SearchOptions) :
    Int × Option Int :=
  if dungeonTruthy options && (posIsOf query "final" || isFinalBossQueryOf query) then
    let m := maxOrderScan store query ((dungeonNameOf options).getD "")
    (m, some m)
  else if posIsOf query "first" && isBossQueryFlag query == some true then
    match bossOrders store options with
    | [] => (0, none)
    | x :: xs => (0, some (List.foldl min x xs))
  else if posIsOf query "second" && isBossQueryFlag query == some true then
    let bosses := bossOrders store options
    if bosses.length ≥ 2 then (0, (sortAscInt bosses)[1]?) else (0, none)
  else if posIsOf query "third" && isBossQueryFlag query == some true then
    let bosses := bossOrders store options
    if bosses.length ≥ 3 then (0, (sortAscInt bosses)[2]?) else (0, none)
  else
    match (detectEncounterPosition query).bind fun spec => spec.orderNumber with
    | some k => if k != 0 then (0, some k) else (0, none)
    | none => (0, none)

/-- JavaScript `options.topK || 10` (lines 259 and 456). -/
def topKOrDefault (t : Option Nat) : Nat :=
  match t with
  | some n => if n == 0 then 10 else n
  | none => 10

/-- Lines 259-262: the amplified provider-side topK. -/
def adjustedTopK (options : SearchOptions) : Nat :=
  if dungeonTruthy options then topKOrDefault options.topK * 4
  else topKOrDefault options.topK * 2

/-- Lines 266-269: the options actually passed to the similarity-search provider. -/
def searchOptionsOf (options : SearchOptions) : SearchOptions :=
  { options with topK := some (adjustedTopK options) }

/-- Lines 286-299: metadata reconstructed from a store entry for the fallback path. -/
def metadataOf (e : StoredEntry) : VectorMetadata :=
  { mechanicId := e.mechanic.id
    mechanicName := e.mechanic.name
    encounterId := e.encounter.id
    encounterName := e.encounter.name
    encounterOrder := e.encounter.order
    dungeonRaidId := e.dungeonRaid.id
    dungeonRaidName := e.dungeonRaid.name
    dungeonRaidType := e.dungeonRaid.type
    mechanicType := e.mechanic.type
    encounterType := e.encounter.type
    difficulty := e.mechanic.difficulty
    contestModeSpecific := e.mechanic.contestModeSpecific }

/-- Lines 282-307: the direct store scan used when the provider returns nothing. -/
def fallbackCandidates (store : MechanicStore) (d : String) : List VectorMatch :=
  store.filterMap fun kv =>
    if kv.2.dungeonRaid.name == d then
      some { id := kv.1, score := 1/2, metadata := metadataOf kv.2 }
    else none

/-- Nullish-coalescing resolution of a candidate encounter order: the store
value first, the vector metadata second (rag.ts lines 329 and 367). -/
def resolvedOrder (store : MechanicStore) (r : VectorMatch) : Option Int :=
  match storeGet store r.metadata.mechanicId with
  | some st =>
    match st.encounter.order with
    | some k => some k
    | none => r.metadata.encounterOrder
  | none => r.metadata.encounterOrder

/-- Nullish-coalescing resolution of a candidate encounter type (line 332). -/
def resolvedType (store : MechanicStore) (r : VectorMatch) : String :=
  match storeGet store r.metadata.mechanicId with
  | some st => st.encounter.type
  | none => r.metadata.encounterType

/-- Lines 310-321: recompute the final-boss maximum from fallback candidates. -/
def fallbackRecompute (query : String) (isBossQuery : Option Bool) (m : Int)
    (cands : List VectorMatch) : Int :=
  List.foldl (fun acc r =>
    if (isFinalBossQueryOf query || isBossQuery == some true)
        && r.metadata.encounterType != "boss" then acc
    else
      match r.metadata.encounterOrder with
      | some k => if k != 0 && k > acc then k else acc
      | none => acc) m cands

/-- Lines 326-341: recompute the final-boss maximum from provider results. -/
def searchRecompute (store : MechanicStore) (query : String) (isBossQuery : Option Bool)
    (m : Int) (cands : List VectorMatch) : Int :=
  List.foldl (fun acc r =>
    if (isFinalBossQueryOf query || isBossQuery == some true)
        && resolvedType store r != "boss" then acc
    else
      match resolvedOrder store r with
      | some k => if k != 0 && k > acc then k else acc
      | none => acc) m cands

/-- Lines 278-342: fallback substitution and late target resolution. Returns
the effective candidate list with the updated pair
(maxEncounterOrder, targetEncounterOrder). -/
def postFallback (store : MechanicStore) (query : String) (options : SearchOptions)
    (raw0 : List VectorMatch) : List VectorMatch × Int × Option Int :=
  let pre := preTarget store query options
  let step1 : List VectorMatch × Int × Option Int :=
    if raw0.isEmpty && dungeonTruthy options then
      let cands := fallbackCandidates store ((dungeonNameOf options).getD "")
      if (posIsOf query "final" || isFinalBossQueryOf query) && pre.2.isNone then
        let m := fallbackRecompute query (isBossQueryFlag query) pre.1 cands
        (cands, m, some m)
      else (cands, pre.1, pre.2)
    else (raw0, pre.1, pre.2)
  if step1.2.2.isNone && (posIsOf query "final" || isFinalBossQueryOf query) then
    let m := searchRecompute store query (isBossQueryFlag query) step1.2.1 step1.1
    (step1.1, m, some m)
  else step1

/-- The position filter/boost of rag.ts lines 366-379 for a store-backed
candidate: none means the candidate is dropped, otherwise the adjusted score. -/
def positionStep (query : String) (target : Option Int) (maxOrder : Int)
    (score : ℚ) (encounterOrder : Option Int) : Option ℚ :=
  match target with
  | some t =>
    if encounterOrder == some t then some (min 1 (score + 8/10))
    else if encounterOrder.isSome then none
    else some score
  | none =>
    if isFinalBossQueryOf query && encounterOrder.isSome
        && encounterOrder == some maxOrder && maxOrder > 0 then
      some (min 1 (score + 8/10))
    else some score

/-- Lines 349-444: per-candidate reconstruction, position filter/boost and
flow classification. Returns none when the candidate is dropped, otherwise
the flow flag together with the finished search result. -/
def processOne (store : MechanicStore) (query : String) (target : Option Int)
    (maxOrder : Int) (r : VectorMatch) : Option (Bool × SearchResult) :=
  match storeGet store r.metadata.mechanicId with
  | some stored =>
    let base : SearchResult :=
      { id := r.id
        score := r.score
        mechanic := stored.mechanic
        encounter := stored.encounter
        dungeonRaid :=
          { id := stored.dungeonRaid.id
            name := stored.dungeonRaid.name
            type := stored.dungeonRaid.type } }
    let encounterOrder : Option Int :=
      match stored.encounter.order with
      | some k => some k
      | none => r.metadata.encounterOrder
    (positionStep query target maxOrder r.score encounterOrder).map fun s1 =>
      if isEncounterFlowMechanic stored.mechanic then
        (true, { base with score := min 1 (s1 + 3/10) })
      else
        (false, { base with score := s1 })
  | none =>
    let metadata := r.metadata
    let encounterOrder := metadata.encounterOrder
    if target.isSome && encounterOrder.isSome && encounterOrder != target then none
    else
      let base : SearchResult :=
        { id := r.id
          score := r.score
          mechanic :=
            { id := metadata.mechanicId
              name := metadata.mechanicName
              description := "[Description not available - server needs to reload mechanic data]"
              type := metadata.mechanicType
              difficulty := metadata.difficulty
              contestModeSpecific := metadata.contestModeSpecific }
          encounter :=
            { id := metadata.encounterId
              name := metadata.encounterName
              description := ""
              type := metadata.encounterType
              mechanics := []
              order := encounterOrder }
          dungeonRaid :=
            { id := metadata.dungeonRaidId
              name := metadata.dungeonRaidName
              type := metadata.dungeonRaidType } }
      let s1 : ℚ :=
        if target.isSome && encounterOrder.isSome && encounterOrder == target then
          min 1 (r.score + 8/10)
        else r.score
      let nameLower := lowerStr metadata.mechanicName
      if flowKeywords.any (fun keyword => strIncludes nameLower keyword) then
        some (true, { base with score := min 1 (s1 + 3/10) })
      else
        some (false, { base with score := s1 })

/-- Stable insertion of a search result into a list sorted by descending score
(models the stable JavaScript sort with comparator b.score - a.score). -/
def insertDesc (x : SearchResult) : List SearchResult → List SearchResult
  | [] => [x]
  | y :: ys => if y.score ≤ x.score then x :: y :: ys else y :: insertDesc x ys

/-- The stable descending-by-score sort of rag.ts lines 447-449. -/
def sortByScoreDesc : List SearchResult → List SearchResult
  | [] => []
  | x :: xs => insertDesc x (sortByScoreDesc xs)

/-- Lines 344-457 (except the relocated lines 326-342): process all
candidates, bucket into flow and other, sort each bucket by descending score,
concatenate flow first and truncate to the requested limit. -/
def retrieveCore (store : MechanicStore) (query : String) (options : SearchOptions)
    (maxOrder : Int) (target : Option Int) (cands : List VectorMatch) : List SearchResult :=
  let processed := cands.filterMap (processOne store query target maxOrder)
  let flowMechanics := (processed.filter fun p => p.1).map fun p => p.2
  let otherMechanics := (processed.filter fun p => !p.1).map fun p => p.2
  let finalResults := sortByScoreDesc flowMechanics ++ sortByScoreDesc otherMechanics
  finalResults.take (topKOrDefault options.topK)

/-- Lines 276-457: everything after the provider round trip. -/
def retrieveStage2 (store : MechanicStore) (query : String) (options : SearchOptions)
    (raw0 : List VectorMatch) : List SearchResult :=
  let pf := postFallback store query options raw0
  retrieveCore store query options pf.2.1 pf.2.2 pf.1

/-- retrieveRelevantMechanics (rag.ts lines 173-462) with the embedding and
similarity-search providers passed in as pure functions. -/
def retrieveRelevantMechanics (store : MechanicStore)
    (embed : String → List ℚ)
    (search : List ℚ → SearchOptions → List VectorMatch)
    (query : String) (options : SearchOptions) : List SearchResult :=
  retrieveStage2 store query options (search (embed query) (searchOptionsOf options))

/-! ## Fallible variants (error wrapping of rag.ts and vector-store.ts) -/

/-- searchSimilar error wrapping (vector-store.ts lines 115-118): any provider
failure surfaces as the single wrapped search error. -/
def searchSimilarE (providerQuery : List ℚ → SearchOptions → Except String (List VectorMatch))
    (v : List ℚ) (opts : SearchOptions) : Except String (List VectorMatch) :=
  match providerQuery v opts with
  | Except.error _ => Except.error "Failed to search vector store"
  | Except.ok rs => Except.ok rs

/-- Fallible retrieveRelevantMechanics: the try/catch of rag.ts lines 177 and
458-461 wraps any provider failure into the single retrieval error. The two
extra components count the calls made to the embedding provider and to the
search provider; the code calls each in a straight line without any retry. -/
def retrieveRelevantMechanicsRun (store : MechanicStore)
    (embedE : String → Except String (List ℚ))
    (searchE : List ℚ → SearchOptions → Except String (List VectorMatch))
    (query : String) (options : SearchOptions) :
    Except String (List SearchResult) × Nat × Nat :=
  match embedE query with
  | Except.error _ => (Except.error "Failed to retrieve relevant mechanics", 1, 0)
  | Except.ok v =>
    match searchSimilarE searchE v (searchOptionsOf options) with
    | Except.error _ => (Except.error "Failed to retrieve relevant mechanics", 1, 1)
    | Except.ok raw0 => (Except.ok (retrieveStage2 store query options raw0), 1, 1)

/-- The fallible retrieval result alone. -/
def retrieveRelevantMechanicsE (store : MechanicStore)
    (embedE : String → Except String (List ℚ))
    (searchE : List ℚ → SearchOptions → Except String (List VectorMatch))
    (query : String) (options : SearchOptions) : Except String (List SearchResult) :=
  (retrieveRelevantMechanicsRun store embedE searchE query options).1

/-! ## Sorting lemmas -/

theorem mem_insertDesc {x a : SearchResult} {l : List SearchResult} :
    x ∈ insertDesc a l ↔ x = a ∨ x ∈ l := by
  induction l with
  | nil => simp [insertDesc]
  | cons y ys ih =>
    rw [insertDesc]
    by_cases hc : y.score ≤ a.score
    · rw [if_pos hc]
      exact List.mem_cons
    · rw [if_neg hc]
      simp only [List.mem_cons, ih]
      tauto

theorem mem_sortByScoreDesc {x : SearchResult} {l : List SearchResult} :
    x ∈ sortByScoreDesc l ↔ x ∈ l := by
  induction l with
  | nil => simp [sortByScoreDesc]
  | cons y ys ih => simp [sortByScoreDesc, mem_insertDesc, ih]

theorem sorted_insertDesc {a : SearchResult} {l : List SearchResult}
    (h : List.Sorted (fun u v => v.score ≤ u.score) l) :
    List.Sorted (fun u v => v.score ≤ u.score) (insertDesc a l) := by
  induction l with
  | nil => simp [insertDesc]
  | cons y ys ih =>
    rw [insertDesc]
    rcases List.sorted_cons.mp h with ⟨hy, hys⟩
    by_cases hc : y.score ≤ a.score
    · rw [if_pos hc]
      refine List.sorted_cons.mpr ⟨?_, h⟩
      intro b hb
      rcases List.mem_cons.mp hb with rfl | hb
      · exact hc
      · exact le_trans (hy b hb) hc
    · rw [if_neg hc]
      refine List.sorted_cons.mpr ⟨?_, ih hys⟩
      intro b hb
      rcases mem_insertDesc.mp hb with rfl | hb
      · exact le_of_not_le hc
      · exact hy b hb

theorem sorted_sortByScoreDesc (l : List SearchResult) :
    List.Sorted (fun u v => v.score ≤ u.score) (sortByScoreDesc l) := by
  induction l with
  | nil => simp [sortByScoreDesc]
  | cons y ys ih => exact sorted_insertDesc ih

/-! ## processOne characterization lemmas -/

/-- The flow boost applied on top of a position-adjusted score. -/
def flowAdjust (isFlow : Bool) (q : ℚ) : ℚ :=
  if isFlow then min 1 (q + 3/10) else q

theorem processOne_flag {store : MechanicStore} {query : String} {target : Option Int}
    {maxOrder : Int} {r : VectorMatch} {b : Bool} {sr : SearchResult}
    (h : processOne store query target maxOrder r = some (b, sr)) :
    b = isEncounterFlowMechanic sr.mechanic := by
  unfold processOne at h
  cases hg : storeGet store r.metadata.mechanicId <;> simp only [hg] at h
  case none =>
    split at h
    · simp at h
    · split at h <;>
        (injection h with h1; injection h1 with hb hsr; subst hb; subst hsr;
         simp_all [isEncounterFlowMechanic])
  case some stored =>
    rcases Option.map_eq_some'.mp h with ⟨s1, _, hf⟩
    split at hf <;>
      (injection hf with hb hsr; subst hb; subst hsr;
       simp_all [isEncounterFlowMechanic])

theorem positionStep_some_char {query : String} {t maxOrder : Int} {score : ℚ}
    {ord : Option Int} {s1 : ℚ}
    (h : positionStep query (some t) maxOrder score ord = some s1) :
    (ord = some t ∧ s1 = min 1 (score + 8/10)) ∨ (ord = none ∧ s1 = score) := by
  simp only [positionStep] at h
  split at h
  next hc =>
    injection h with hs
    exact Or.inl ⟨by simpa using hc, hs.symm⟩
  next hc =>
    split at h
    next hd => simp at h
    next hd =>
      injection h with hs
      exact Or.inr ⟨Option.not_isSome_iff_eq_none.mp (by simpa using hd), hs.symm⟩

theorem positionStep_mem {query : String} {target : Option Int} {maxOrder : Int}
    {score : ℚ} {ord : Option Int} {s1 : ℚ}
    (h : positionStep query target maxOrder score ord = some s1) :
    s1 = score ∨ s1 = min 1 (score + 8/10) := by
  rcases target with _ | t <;> simp only [positionStep] at h
  · split at h
    · injection h with hs
      exact Or.inr hs.symm
    · injection h with hs
      exact Or.inl hs.symm
  · split at h
    · injection h with hs
      exact Or.inr hs.symm
    · split at h
      · simp at h
      · injection h with hs
        exact Or.inl hs.symm

theorem processOne_some_target_char {store : MechanicStore} {query : String}
    {t : Int} {maxOrder : Int} {r : VectorMatch} {b : Bool} {sr : SearchResult}
    (h : processOne store query (some t) maxOrder r = some (b, sr)) :
    (resolvedOrder store r = some t ∧ sr.score = flowAdjust b (min 1 (r.score + 8/10)))
    ∨ (resolvedOrder store r = none ∧ sr.score = flowAdjust b r.score) := by
  unfold processOne at h
  cases hg : storeGet store r.metadata.mechanicId <;> simp only [hg] at h
  case some stored =>
    have hro : resolvedOrder store r =
        (match stored.encounter.order with
         | some k => some k
         | none => r.metadata.encounterOrder) := by
      unfold resolvedOrder
      rw [hg]
    rcases Option.map_eq_some'.mp h with ⟨s1, hs1, hf⟩
    rcases positionStep_some_char hs1 with ⟨hord, hs⟩ | ⟨hord, hs⟩
    · left
      refine ⟨by rw [hro, hord], ?_⟩
      split at hf <;>
        (injection hf with hb2 hsr; subst hb2; subst hsr; simp [flowAdjust, hs])
    · right
      refine ⟨by rw [hro, hord], ?_⟩
      split at hf <;>
        (injection hf with hb2 hsr; subst hb2; subst hsr; simp [flowAdjust, hs])
  case none =>
    have hro : resolvedOrder store r = r.metadata.encounterOrder := by
      unfold resolvedOrder
      rw [hg]
    split at h
    · simp at h
    next hdrop =>
      rcases ho : r.metadata.encounterOrder with _ | k
      · right
        rw [ho] at h hro
        refine ⟨hro, ?_⟩
        split at h <;>
          (injection h with h1; injection h1 with hb2 hsr; subst hb2; subst hsr;
           simp [flowAdjust])
      · rw [ho] at h hdrop hro
        have hkt : k = t := by
          by_contra hne
          exact hdrop (by simp [hne])
        subst hkt
        left
        refine ⟨hro, ?_⟩
        split at h <;>
          (injection h with h1; injection h1 with hb2 hsr; subst hb2; subst hsr;
           simp [flowAdjust])

theorem processOne_drop {store : MechanicStore} {query : String} {t : Int}
    {maxOrder : Int} {r : VectorMatch} {k : Int}
    (hk : resolvedOrder store r = some k) (hne : k ≠ t) :
    processOne store query (some t) maxOrder r = none := by
  unfold resolvedOrder at hk
  unfold processOne
  cases hg : storeGet store r.metadata.mechanicId <;> simp only [hg] at hk <;> simp only [hg]
  case none =>
    simp [hk, hne]
  case some stored =>
    have hstep : positionStep query (some t) maxOrder r.score
        (match stored.encounter.order with
         | some kk => some kk
         | none => r.metadata.encounterOrder) = none := by
      rw [hk]
      simp [positionStep, hne]
    rw [hstep]
    rfl

theorem clamp01 {x c : ℚ} (hx : 0 ≤ x) (hc : 0 ≤ c) :
    0 ≤ min 1 (x + c) ∧ min 1 (x + c) ≤ 1 :=
  ⟨le_min (by norm_num) (by linarith), min_le_left _ _⟩

theorem processOne_score_shape {store : MechanicStore} {query : String}
    {target : Option Int} {maxOrder : Int} {r : VectorMatch} {b : Bool} {sr : SearchResult}
    (h : processOne store query target maxOrder r = some (b, sr)) :
    ∃ s1, (s1 = r.score ∨ s1 = min 1 (r.score + 8/10))
      ∧ (sr.score = s1 ∨ sr.score = min 1 (s1 + 3/10)) := by
  unfold processOne at h
  cases hg : storeGet store r.metadata.mechanicId <;> simp only [hg] at h
  case some stored =>
    rcases Option.map_eq_some'.mp h with ⟨s1, hs1, hf⟩
    refine ⟨s1, positionStep_mem hs1, ?_⟩
    split at hf <;>
      (injection hf with hb2 hsr; subst hb2; subst hsr; simp)
  case none =>
    split at h
    · simp at h
    next hdrop =>
      by_cases hbc : ((target.isSome && r.metadata.encounterOrder.isSome
          && (r.metadata.encounterOrder == target)) = true)
      · rw [if_pos hbc] at h
        refine ⟨min 1 (r.score + 8/10), Or.inr rfl, ?_⟩
        split at h <;>
          (injection h with h1; injection h1 with hb2 hsr; subst hb2; subst hsr; simp)
      · rw [if_neg hbc] at h
        refine ⟨r.score, Or.inl rfl, ?_⟩
        split at h <;>
          (injection h with h1; injection h1 with hb2 hsr; subst hb2; subst hsr; simp)

theorem processOne_score_bounds {store : MechanicStore} {query : String}
    {target : Option Int} {maxOrder : Int} {r : VectorMatch} {b : Bool} {sr : SearchResult}
    (h0 : 0 ≤ r.score) (h1 : r.score ≤ 1)
    (h : processOne store query target maxOrder r = some (b, sr)) :
    0 ≤ sr.score ∧ sr.score ≤ 1 := by
  obtain ⟨s1, hs1, hsr⟩ := processOne_score_shape h
  have hb1 : 0 ≤ s1 ∧ s1 ≤ 1 := by
    rcases hs1 with rfl | rfl
    · exact ⟨h0, h1⟩
    · exact clamp01 h0 (by norm_num)
  rcases hsr with hsr | hsr <;> rw [hsr]
  · exact hb1
  · exact clamp01 hb1.1 (by norm_num)

/-! ## retrieveCore decomposition lemmas -/

theorem mem_retrieveCore {store : MechanicStore} {query : String} {options : SearchOptions}
    {maxOrder : Int} {target : Option Int} {cands : List VectorMatch} {sr : SearchResult}
    (h : sr ∈ retrieveCore store query options maxOrder target cands) :
    ∃ b r, r ∈ cands ∧ processOne store query target maxOrder r = some (b, sr) := by
  unfold retrieveCore at h
  have h' := List.take_subset _ _ h
  rcases List.mem_append.mp h' with hf | hf <;>
    (have h2 := mem_sortByScoreDesc.mp hf
     rcases List.mem_map.mp h2 with ⟨p, hp, rfl⟩
     rcases List.mem_filter.mp hp with ⟨hpm, _⟩
     rcases List.mem_filterMap.mp hpm with ⟨r, hr, hpr⟩
     exact ⟨p.1, r, hr, hpr⟩)

theorem retrieveCore_split (store : MechanicStore) (query : String) (options : SearchOptions)
    (maxOrder : Int) (target : Option Int) (cands : List VectorMatch) :
    ∃ fl ot, retrieveCore store query options maxOrder target cands = fl ++ ot
      ∧ (∀ x ∈ fl, isEncounterFlowMechanic x.mechanic = true)
      ∧ (∀ x ∈ ot, isEncounterFlowMechanic x.mechanic = false)
      ∧ List.Sorted (fun u v => v.score ≤ u.score) fl
      ∧ List.Sorted (fun u v => v.score ≤ u.score) ot := by
  unfold retrieveCore
  rw [List.take_append_eq_append_take]
  refine ⟨_, _, rfl, ?_, ?_, ?_, ?_⟩
  · intro x hx
    have hx' := mem_sortByScoreDesc.mp (List.take_subset _ _ hx)
    rcases List.mem_map.mp hx' with ⟨p, hp, rfl⟩
    rcases List.mem_filter.mp hp with ⟨hpm, hflag⟩
    obtain ⟨pb, psr⟩ := p
    rcases List.mem_filterMap.mp hpm with ⟨r, _, hpr⟩
    have := processOne_flag hpr
    rw [← this]
    exact hflag
  · intro x hx
    have hx' := mem_sortByScoreDesc.mp (List.take_subset _ _ hx)
    rcases List.mem_map.mp hx' with ⟨p, hp, rfl⟩
    rcases List.mem_filter.mp hp with ⟨hpm, hflag⟩
    obtain ⟨pb, psr⟩ := p
    rcases List.mem_filterMap.mp hpm with ⟨r, _, hpr⟩
    have := processOne_flag hpr
    rw [← this]
    simpa using hflag
  · exact List.Pairwise.sublist (List.take_sublist _ _) (sorted_sortByScoreDesc _)
  · exact List.Pairwise.sublist (List.take_sublist _ _) (sorted_sortByScoreDesc _)

/-! ## Store and fallback lemmas -/

theorem storeGet_mem {store : MechanicStore} {key : String} {e : StoredEntry}
    (h : storeGet store key = some e) : (key, e) ∈ store := by
  induction store with
  | nil => simp [storeGet] at h
  | cons kv rest ih =>
    rw [storeGet] at h
    split at h
    next hk =>
      injection h with he
      subst he
      have hkey : kv.1 = key := by simpa using hk
      subst hkey
      exact List.mem_cons_self _ _
    next hk =>
      exact List.mem_cons_of_mem _ (ih h)

theorem mem_fallbackCandidates {store : MechanicStore} {d : String} {r : VectorMatch}
    (h : r ∈ fallbackCandidates store d) :
    r.score = 1/2 ∧ ∃ kv, kv ∈ store ∧ kv.2.dungeonRaid.name = d
      ∧ r = { id := kv.1, score := 1/2, metadata := metadataOf kv.2 } := by
  unfold fallbackCandidates at h
  rcases List.mem_filterMap.mp h with ⟨kv, hkv, hr⟩
  split at hr
  next hname =>
    injection hr with hr
    subst hr
    exact ⟨rfl, kv, hkv, by simpa using hname, rfl⟩
  next hname => simp at hr

theorem postFallback_fst (store : MechanicStore) (query : String) (options : SearchOptions)
    (raw0 : List VectorMatch) :
    (postFallback store query options raw0).1
      = if raw0.isEmpty && dungeonTruthy options then
          fallbackCandidates store ((dungeonNameOf options).getD "")
        else raw0 := by
  unfold postFallback
  by_cases h1 : (raw0.isEmpty && dungeonTruthy options) = true
  · simp only [if_pos h1]
    split
    · split <;> rfl
    · split <;> rfl
  · simp only [if_neg h1]
    split <;> rfl

theorem postFallback_target_some {store : MechanicStore} {query : String}
    {options : SearchOptions} (raw0 : List VectorMatch) {m : Int} {v : Int}
    (hpre : preTarget store query options = (m, some v)) :
    (postFallback store query options raw0).2.1 = m
    ∧ (postFallback store query options raw0).2.2 = some v := by
  unfold postFallback
  simp only [hpre]
  by_cases h1 : (raw0.isEmpty && dungeonTruthy options) = true <;> simp [h1]

/-- The result length is always bounded by the effective limit. -/
theorem retrieve_length_le (store : MechanicStore) (embed : String → List ℚ)
    (search : List ℚ → SearchOptions → List VectorMatch)
    (query : String) (options : SearchOptions) :
    (retrieveRelevantMechanics store embed search query options).length
      ≤ topKOrDefault options.topK := by
  unfold retrieveRelevantMechanics retrieveStage2 retrieveCore
  exact List.length_take_le _ _

/-! ## Concrete fixtures used by witnesses and counterexamples -/

/-- Metadata of a plain candidate with no encounter order and a non-flow name. -/
def mdPlain : VectorMetadata :=
  { mechanicId := "m1", mechanicName := "Some Mechanic", encounterId := "e1",
    encounterName := "Enc", dungeonRaidId := "d1", dungeonRaidName := "D",
    dungeonRaidType := "dungeon", mechanicType := "puzzle", encounterType := "boss" }

/-- A plain provider match at score 0. -/
def rPlain : VectorMatch := { id := "m1", score := 0, metadata := mdPlain }

/-- Metadata of a candidate whose encounter order is 1. -/
def mdOrd1 : VectorMetadata :=
  { mechanicId := "m2", mechanicName := "Another Mechanic", encounterId := "e1",
    encounterName := "Enc", encounterOrder := some 1, dungeonRaidId := "d1",
    dungeonRaidName := "D", dungeonRaidType := "dungeon", mechanicType := "puzzle",
    encounterType := "boss" }

/-- A provider match at score 0 whose encounter order is 1. -/
def rOrd1 : VectorMatch := { id := "m2", score := 0, metadata := mdOrd1 }

/-- The collection used by the store fixtures. -/
def drD : DungeonRaid :=
  { id := "d1", name := "D", type := "dungeon", description := "x", encounters := [] }

/-- A mechanic fixture. -/
def mechOf (i : String) : Mechanic :=
  { id := i, name := "Some Mechanic", description := "x", type := "puzzle" }

/-- A boss encounter without a defined order. -/
def encNoOrder : Encounter :=
  { id := "e0", name := "Enc", description := "x", type := "boss", mechanics := [] }

/-- A boss encounter at order 2. -/
def bossEncA : Encounter :=
  { id := "eA", name := "Boss A", description := "x", type := "boss",
    mechanics := [], order := some 2 }

/-- A boss encounter at order 5. -/
def bossEncB : Encounter :=
  { id := "eB", name := "Boss B", description := "x", type := "boss",
    mechanics := [], order := some 5 }

/-- Options whose filter selects collection "D". -/
def optsD : SearchOptions := { filter := some { dungeonRaidName := some "D" } }

/-- A one-entry store for collection "D" with no defined encounter order. -/
def storeNoOrder : MechanicStore :=
  [("m1", { mechanic := mechOf "m1", encounter := encNoOrder, dungeonRaid := drD })]

/-- A store with one two-mechanic boss encounter at order 2 and one
one-mechanic boss encounter at order 5, all in collection "D". -/
def storeTwoBosses : MechanicStore :=
  [("m1", { mechanic := mechOf "m1", encounter := bossEncA, dungeonRaid := drD }),
   ("m2", { mechanic := mechOf "m2", encounter := bossEncA, dungeonRaid := drD }),
   ("m3", { mechanic := mechOf "m3", encounter := bossEncB, dungeonRaid := drD })]

/-! ## Claims -/

/-- C1: in every result list of retrieve, every flow-bucket result (mechanic
whose name contains one of the case-insensitive flow keywords) precedes every
other-bucket result regardless of relative scores, and within each bucket the
scores are in descending order. -/
theorem flow_results_precede_other_results (store : MechanicStore)
    (embed : String → List ℚ) (search : List ℚ → SearchOptions → List VectorMatch)
    (query : String) (options : SearchOptions) :
    ∃ fl ot,
      retrieveRelevantMechanics store embed search query options = fl ++ ot
      ∧ (∀ x ∈ fl, isEncounterFlowMechanic x.mechanic = true)
      ∧ (∀ x ∈ ot, isEncounterFlowMechanic x.mechanic = false)
      ∧ List.Sorted (fun u v => v.score ≤ u.score) fl
      ∧ List.Sorted (fun u v => v.score ≤ u.score) ot := by
  unfold retrieveRelevantMechanics retrieveStage2
  exact retrieveCore_split _ _ _ _ _ _

/-- C4 counterexample: with topK explicitly 0 and one candidate, retrieve
returns a non-empty list, so its length is not at most 0 as the claim demands
for every integer N. -/
theorem topK_zero_exceeds_bound :
    ¬ ((retrieveRelevantMechanics [] (fun _ => []) (fun _ _ => [rPlain]) "hi"
        { filter := none, topK := some 0 }).length ≤ 0) := by decide

/-- C4 amended: for every positive integer N supplied as topK the result list
has length at most N, and when topK is not supplied (or 0, which the code
treats as unsupplied) the limit defaults to 10. -/
theorem topK_bounds_result_length (store : MechanicStore)
    (embed : String → List ℚ) (search : List ℚ → SearchOptions → List VectorMatch)
    (query : String) (f : Option SearchFilter) (N : Nat) (hN : N ≠ 0) :
    (retrieveRelevantMechanics store embed search query
        { filter := f, topK := some N }).length ≤ N
    ∧ (retrieveRelevantMechanics store embed search query
        { filter := f, topK := none }).length ≤ 10 := by
  constructor
  · have h := retrieve_length_le store embed search query { filter := f, topK := some N }
    simpa [topKOrDefault, hN] using h
  · simpa [topKOrDefault] using
      retrieve_length_le store embed search query { filter := f, topK := none }

/-- Witness for the amended C4 at the concrete bound 1. -/
theorem topK_bounds_result_length_witness :
    (1 : Nat) ≠ 0
    ∧ ((retrieveRelevantMechanics [] (fun _ => []) (fun _ _ => [rPlain]) "hi"
          { filter := none, topK := some 1 }).length ≤ 1
       ∧ (retrieveRelevantMechanics [] (fun _ => []) (fun _ _ => [rPlain]) "hi"
          { filter := none, topK := none }).length ≤ 10) :=
  ⟨by decide, topK_bounds_result_length [] (fun _ => []) (fun _ _ => [rPlain]) "hi" none 1
      (by decide)⟩

/-- C9: an explicit topK of 0 is treated exactly like an unspecified topK: the
whole retrieval behaves identically, the truncation limit defaults to 10, and
the provider-side amplified topK uses base 10 (times 4 with a collection
filter, times 2 otherwise); in particular a call with topK 0 can return a
non-empty list. -/
theorem topK_zero_means_default :
    (∀ (store : MechanicStore) (embed : String → List ℚ)
        (search : List ℚ → SearchOptions → List VectorMatch)
        (query : String) (f : Option SearchFilter),
      retrieveRelevantMechanics store embed search query { filter := f, topK := some 0 }
        = retrieveRelevantMechanics store embed search query { filter := f, topK := none }
      ∧ topKOrDefault (some 0) = 10
      ∧ adjustedTopK { filter := f, topK := some 0 }
          = if dungeonTruthy { filter := f, topK := some 0 } then 10 * 4 else 10 * 2)
    ∧ retrieveRelevantMechanics [] (fun _ => []) (fun _ _ => [rPlain]) "hi"
        { filter := none, topK := some 0 } ≠ [] := by
  constructor
  · intro store embed search query f
    refine ⟨rfl, rfl, rfl⟩
  · decide

/-- C2: when the resolved targetEncounterOrder is t, every returned result
comes from a kept candidate whose resolved encounter order is exactly t (its
score boosted by +0.8 and clamped to 1.0 before the flow adjustment) or whose
resolved encounter order is undefined (position score unmodified); candidates
with a defined differing order are never returned. -/
theorem target_order_filter_and_boost (store : MechanicStore)
    (embed : String → List ℚ) (search : List ℚ → SearchOptions → List VectorMatch)
    (query : String) (options : SearchOptions) (t : Int)
    (ht : (postFallback store query options
        (search (embed query) (searchOptionsOf options))).2.2 = some t) :
    ∀ sr ∈ retrieveRelevantMechanics store embed search query options,
      ∃ r, r ∈ (postFallback store query options
            (search (embed query) (searchOptionsOf options))).1
        ∧ ((resolvedOrder store r = some t
              ∧ sr.score = flowAdjust (isEncounterFlowMechanic sr.mechanic)
                  (min 1 (r.score + 8/10)))
           ∨ (resolvedOrder store r = none
              ∧ sr.score = flowAdjust (isEncounterFlowMechanic sr.mechanic) r.score)) := by
  intro sr hsr
  unfold retrieveRelevantMechanics retrieveStage2 at hsr
  obtain ⟨b, r, hr, hpr⟩ := mem_retrieveCore hsr
  rw [ht] at hpr
  have hb := processOne_flag hpr
  refine ⟨r, hr, ?_⟩
  rcases processOne_some_target_char hpr with ⟨h1, h2⟩ | ⟨h1, h2⟩
  · exact Or.inl ⟨h1, by rw [← hb]; exact h2⟩
  · exact Or.inr ⟨h1, by rw [← hb]; exact h2⟩

/-- Witness for C2 on a "first encounter" query with one order-1 candidate. -/
theorem target_order_filter_and_boost_witness :
    (postFallback [] "first encounter" { } [rOrd1]).2.2 = some 1
    ∧ ∀ sr ∈ retrieveRelevantMechanics [] (fun _ => []) (fun _ _ => [rOrd1])
        "first encounter" { },
      ∃ r, r ∈ (postFallback [] "first encounter" { } [rOrd1]).1
        ∧ ((resolvedOrder [] r = some 1
              ∧ sr.score = flowAdjust (isEncounterFlowMechanic sr.mechanic)
                  (min 1 (r.score + 8/10)))
           ∨ (resolvedOrder [] r = none
              ∧ sr.score = flowAdjust (isEncounterFlowMechanic sr.mechanic) r.score)) :=
  ⟨by decide,
   target_order_filter_and_boost [] (fun _ => []) (fun _ _ => [rOrd1])
     "first encounter" { } 1 (by decide)⟩

/-- C3: when the provider reports scores in [0,1], every score in the result
list of retrieve lies in [0,1]; the +0.8 position boost and the +0.3 flow
boost are each clamped with min 1, and fallback candidates carry score 0.5. -/
theorem result_scores_in_unit_interval (store : MechanicStore)
    (embed : String → List ℚ) (search : List ℚ → SearchOptions → List VectorMatch)
    (query : String) (options : SearchOptions)
    (hprov : ∀ r ∈ search (embed query) (searchOptionsOf options),
        0 ≤ r.score ∧ r.score ≤ 1) :
    ∀ sr ∈ retrieveRelevantMechanics store embed search query options,
      0 ≤ sr.score ∧ sr.score ≤ 1 := by
  intro sr hsr
  unfold retrieveRelevantMechanics retrieveStage2 at hsr
  obtain ⟨b, r, hr, hpr⟩ := mem_retrieveCore hsr
  have hf := postFallback_fst store query options (search (embed query) (searchOptionsOf options))
  rw [hf] at hr
  have hrb : 0 ≤ r.score ∧ r.score ≤ 1 := by
    by_cases hc : ((search (embed query) (searchOptionsOf options)).isEmpty
        && dungeonTruthy options) = true
    · rw [if_pos hc] at hr
      have h12 := (mem_fallbackCandidates hr).1
      rw [h12]
      norm_num
    · rw [if_neg hc] at hr
      exact hprov r hr
  exact processOne_score_bounds hrb.1 hrb.2 hpr

/-- Witness for C3 with a single in-range provider score. -/
theorem result_scores_in_unit_interval_witness :
    (∀ r ∈ [rPlain], 0 ≤ r.score ∧ r.score ≤ 1)
    ∧ ∀ sr ∈ retrieveRelevantMechanics [] (fun _ => []) (fun _ _ => [rPlain]) "hi" { },
        0 ≤ sr.score ∧ sr.score ≤ 1 :=
  ⟨by decide,
   result_scores_in_unit_interval [] (fun _ => []) (fun _ _ => [rPlain]) "hi" { }
     (by decide)⟩

/-- The fallback scan is the store filtered to the collection, mapped to
candidates at the neutral score. -/
theorem fallbackCandidates_eq_filter_map (store : MechanicStore) (d : String) :
    fallbackCandidates store d
      = (store.filter fun kv => kv.2.dungeonRaid.name == d).map
          (fun kv => { id := kv.1, score := 1/2, metadata := metadataOf kv.2 }) := by
  induction store with
  | nil => rfl
  | cons kv rest ih =>
    by_cases hc : kv.2.dungeonRaid.name = d <;>
      simp [fallbackCandidates, List.filterMap_cons, List.filter_cons, hc] at ih ⊢ <;>
      exact ih

/-- C5: with a collection filter and zero provider results, the candidate set
is exactly the store entries of that collection, each at neutral score 0.5,
and the usual position/flow boost pipeline is applied to this fallback set. -/
theorem fallback_scans_store (store : MechanicStore)
    (embed : String → List ℚ) (search : List ℚ → SearchOptions → List VectorMatch)
    (query : String) (options : SearchOptions) (d : String)
    (hd : dungeonNameOf options = some d) (hne : d ≠ "")
    (hempty : search (embed query) (searchOptionsOf options) = []) :
    (postFallback store query options (search (embed query) (searchOptionsOf options))).1
        = fallbackCandidates store d
    ∧ (∀ r ∈ fallbackCandidates store d, r.score = 1/2)
    ∧ fallbackCandidates store d
        = (store.filter fun kv => kv.2.dungeonRaid.name == d).map
            (fun kv => { id := kv.1, score := 1/2, metadata := metadataOf kv.2 })
    ∧ retrieveRelevantMechanics store embed search query options
        = retrieveCore store query options
            (postFallback store query options
              (search (embed query) (searchOptionsOf options))).2.1
            (postFallback store query options
              (search (embed query) (searchOptionsOf options))).2.2
            (fallbackCandidates store d) := by
  have htr : dungeonTruthy options = true := by
    unfold dungeonTruthy
    rw [hd]
    simpa using hne
  have hgd : (dungeonNameOf options).getD "" = d := by rw [hd]; rfl
  have hfst : (postFallback store query options
      (search (embed query) (searchOptionsOf options))).1 = fallbackCandidates store d := by
    rw [postFallback_fst, hempty, hgd]
    simp [htr]
  refine ⟨hfst, fun r hr => (mem_fallbackCandidates hr).1,
    fallbackCandidates_eq_filter_map store d, ?_⟩
  simp only [retrieveRelevantMechanics, retrieveStage2]
  rw [hfst]

/-- Witness for C5: one matching store entry, empty provider output. -/
theorem fallback_scans_store_witness :
    dungeonNameOf optsD = some "D"
    ∧ (postFallback storeNoOrder "q" optsD []).1 = fallbackCandidates storeNoOrder "D"
    ∧ retrieveRelevantMechanics storeNoOrder (fun _ => []) (fun _ _ => []) "q" optsD
        = retrieveCore storeNoOrder "q" optsD
            (postFallback storeNoOrder "q" optsD []).2.1
            (postFallback storeNoOrder "q" optsD []).2.2
            (fallbackCandidates storeNoOrder "D") :=
  ⟨by decide,
   (fallback_scans_store storeNoOrder (fun _ => []) (fun _ _ => []) "q" optsD "D"
     (by decide) (by decide) rfl).1,
   (fallback_scans_store storeNoOrder (fun _ => []) (fun _ _ => []) "q" optsD "D"
     (by decide) (by decide) rfl).2.2.2⟩

/-- C6 (behaviour of the code at the failing input): the second-boss scan
collects one order per store entry (per mechanic), not per distinct boss
encounter. With boss encounters at orders 2 and 5 where the order-2 encounter
holds two mechanics, the collected list is [2, 2, 5], so the target resolves
to 2 (its second element) although the second boss encounter has order 5. -/
theorem second_boss_counts_mechanics_not_encounters :
    bossOrders storeTwoBosses optsD = [2, 2, 5]
    ∧ (preTarget storeTwoBosses "second boss" optsD).2 = some 2
    ∧ ¬ ((preTarget storeTwoBosses "second boss" optsD).2 = none
         ∨ (preTarget storeTwoBosses "second boss" optsD).2 = some 5) := by decide

/-- C7 counterexample: the query "last boss" contains none of the phrases the
claim lists (including the numeral alternates), so by the claim the result
should be undefined; the extractor nevertheless returns a final-boss spec. -/
theorem last_boss_outside_claimed_phrase_list :
    (["final boss", "final encounter", "first boss", "first encounter",
      "second boss", "second encounter", "third boss", "third encounter",
      "1st boss", "1st encounter", "2nd boss", "2nd encounter",
      "3rd boss", "3rd encounter"].all
        fun p => !(strIncludes (lowerStr "last boss") p)) = true
    ∧ ¬ (detectEncounterPosition "last boss" = none) := by decide

/-- The priority-ordered phrase table of the amended C7: each phrase group in
the fixed order, "last boss"/"last encounter" included as alternates of the
final forms and "1st"/"2nd"/"3rd" as numeral alternates; encounter-qualified
ordinal forms carry orderNumber 1/2/3 with isBossQuery false, boss-qualified
and final forms carry no orderNumber. -/
def positionPhraseTable : List (List String × PositionSpec) :=
  [ (["final boss", "last boss"],
      { position := "final", isBossQuery := some true }),
    (["final encounter", "last encounter"],
      { position := "final", isBossQuery := some false }),
    (["first boss", "1st boss"],
      { position := "first", isBossQuery := some true }),
    (["first encounter", "1st encounter"],
      { position := "first", orderNumber := some 1, isBossQuery := some false }),
    (["second boss", "2nd boss"],
      { position := "second", isBossQuery := some true }),
    (["second encounter", "2nd encounter"],
      { position := "second", orderNumber := some 2, isBossQuery := some false }),
    (["third boss", "3rd boss"],
      { position := "third", isBossQuery := some true }),
    (["third encounter", "3rd encounter"],
      { position := "third", orderNumber := some 3, isBossQuery := some false }) ]

/-- Priority matching over a phrase table: the first group with a phrase
occurring in the lowercased query wins. -/
def lookupPosition (queryLower : String) :
    List (List String × PositionSpec) → Option PositionSpec
  | [] => none
  | entry :: rest =>
    if entry.1.any (fun p => strIncludes queryLower p) then some entry.2
    else lookupPosition queryLower rest

/-- Case-insensitive priority matching over the phrase table: the first group
with a phrase occurring in the query wins; no match yields none. -/
def positionExtractionSpec (query : String) : Option PositionSpec :=
  lookupPosition (lowerStr query) positionPhraseTable

/-- C7 amended: position extraction is exactly priority-ordered matching over
the listed phrase groups with "last boss"/"last encounter" as final-form
alternates: the first matching group wins, encounter-qualified ordinal forms
yield orderNumber 1/2/3 with isBossQuery false, boss-qualified and final forms
carry no orderNumber, and with no match the result is undefined. -/
theorem position_extraction_matches_priority_table (q : String) :
    detectEncounterPosition q = positionExtractionSpec q := by
  simp only [detectEncounterPosition, positionExtractionSpec, positionPhraseTable,
    lookupPosition, List.any_cons, List.any_nil, Bool.or_false]

/-- C8: a failing embedding call or a failing similarity-search call surfaces
as the single wrapped retrieval error; the straight-line code calls the
embedding provider exactly once and the search provider at most once (no
retry), and retrieval never produces a partial result: every outcome is
either ok with a (possibly empty) list or that single wrapped error. -/
theorem provider_failure_wrapped (store : MechanicStore)
    (embedE : String → Except String (List ℚ))
    (searchE : List ℚ → SearchOptions → Except String (List VectorMatch))
    (query : String) (options : SearchOptions)
    (hfail : (∃ e, embedE query = Except.error e)
      ∨ (∃ v e, embedE query = Except.ok v
          ∧ searchE v (searchOptionsOf options) = Except.error e)) :
    retrieveRelevantMechanicsE store embedE searchE query options
        = Except.error "Failed to retrieve relevant mechanics"
    ∧ (retrieveRelevantMechanicsRun store embedE searchE query options).2.1 = 1
    ∧ (retrieveRelevantMechanicsRun store embedE searchE query options).2.2 ≤ 1
    ∧ (∀ (st : MechanicStore) (em : String → Except String (List ℚ))
          (se : List ℚ → SearchOptions → Except String (List VectorMatch))
          (q : String) (o : SearchOptions),
        (∃ l, retrieveRelevantMechanicsE st em se q o = Except.ok l)
        ∨ retrieveRelevantMechanicsE st em se q o
            = Except.error "Failed to retrieve relevant mechanics") := by
  refine ⟨?_, ?_, ?_, ?_⟩
  · rcases hfail with ⟨e, he⟩ | ⟨v, e, hv, hs⟩
    · simp [retrieveRelevantMechanicsE, retrieveRelevantMechanicsRun, he]
    · simp [retrieveRelevantMechanicsE, retrieveRelevantMechanicsRun, searchSimilarE, hv, hs]
  · rcases hq : embedE query with e | v
    · simp [retrieveRelevantMechanicsRun, hq]
    · rcases hs : searchSimilarE searchE v (searchOptionsOf options) with e | raw0 <;>
        simp [retrieveRelevantMechanicsRun, hq, hs]
  · rcases hq : embedE query with e | v
    · simp [retrieveRelevantMechanicsRun, hq]
    · rcases hs : searchSimilarE searchE v (searchOptionsOf options) with e | raw0 <;>
        simp [retrieveRelevantMechanicsRun, hq, hs]
  · intro st em se q o
    rcases hq : em q with e | v
    · right
      simp [retrieveRelevantMechanicsE, retrieveRelevantMechanicsRun, hq]
    · rcases hs : searchSimilarE se v (searchOptionsOf o) with e | raw0
      · right
        simp [retrieveRelevantMechanicsE, retrieveRelevantMechanicsRun, hq, hs]
      · left
        exact ⟨retrieveStage2 st q o raw0,
          by simp [retrieveRelevantMechanicsE, retrieveRelevantMechanicsRun, hq, hs]⟩

/-- Witness for C8 with an embedding provider that fails. -/
theorem provider_failure_wrapped_witness :
    retrieveRelevantMechanicsE [] (fun _ => Except.error "boom")
        (fun _ _ => Except.ok []) "q" { }
      = Except.error "Failed to retrieve relevant mechanics" :=
  (provider_failure_wrapped [] (fun _ => Except.error "boom") (fun _ _ => Except.ok [])
    "q" { } (Or.inl ⟨"boom", rfl⟩)).1

/-- When every store entry fails the scan guard, the scanned maximum stays 0. -/
theorem maxOrderScan_eq_zero {store : MechanicStore} {query d : String}
    (h : ∀ kv ∈ store,
        (kv.2.dungeonRaid.name == d && orderTruthy kv.2.encounter.order) = true →
        (isBossQueryFlag query == some true && kv.2.encounter.type != "boss") = true) :
    maxOrderScan store query d = 0 := by
  unfold maxOrderScan
  have haux : ∀ (l : MechanicStore),
      (∀ kv ∈ l, (kv.2.dungeonRaid.name == d && orderTruthy kv.2.encounter.order) = true →
        (isBossQueryFlag query == some true && kv.2.encounter.type != "boss") = true) →
      ∀ acc : Int, List.foldl (maxOrderStep query d) acc l = acc := by
    intro l
    induction l with
    | nil =>
      intro _ acc
      rfl
    | cons kv rest ih =>
      intro hl acc
      rw [List.foldl_cons]
      have hstep : maxOrderStep query d acc kv = acc := by
        unfold maxOrderStep
        by_cases hx : (kv.2.dungeonRaid.name == d && orderTruthy kv.2.encounter.order) = true
        · rw [if_pos hx, if_pos (hl kv (List.mem_cons_self _ _) hx)]
        · rw [if_neg hx]
      rw [hstep]
      exact ih (fun kv2 hkv2 => hl kv2 (List.mem_cons_of_mem _ hkv2)) acc
  exact haux store h 0

/-- On a final-boss query with a truthy collection filter, the pre-search
resolution always sets the target to the scanned maximum (0 included). -/
theorem preTarget_final_boss {store : MechanicStore} {query : String}
    {options : SearchOptions} {d : String}
    (hq : isFinalBossQueryOf query = true)
    (hd : dungeonNameOf options = some d) (hne : d ≠ "") :
    preTarget store query options
      = (maxOrderScan store query d, some (maxOrderScan store query d)) := by
  have htr : dungeonTruthy options = true := by
    unfold dungeonTruthy
    rw [hd]
    simpa using hne
  have hcond : (dungeonTruthy options
      && (posIsOf query "final" || isFinalBossQueryOf query)) = true := by
    simp [htr, hq]
  have hgd : (dungeonNameOf options).getD "" = d := by rw [hd]; rfl
  unfold preTarget
  rw [if_pos hcond, hgd]

/-- A resolved candidate order is positive when both the store orders and the
candidate metadata orders are positive. -/
theorem resolvedOrder_pos {store : MechanicStore} {r : VectorMatch}
    (hstore : ∀ kv ∈ store, ∀ k : Int, kv.2.encounter.order = some k → 0 < k)
    (hmeta : ∀ k : Int, r.metadata.encounterOrder = some k → 0 < k) :
    ∀ k : Int, resolvedOrder store r = some k → 0 < k := by
  intro k hk
  unfold resolvedOrder at hk
  cases hg : storeGet store r.metadata.mechanicId <;> simp only [hg] at hk
  case none => exact hmeta k hk
  case some st =>
    rcases ho : st.encounter.order with _ | k2
    · simp only [ho] at hk
      exact hmeta k hk
    · simp only [ho] at hk
      injection hk with hkk
      subst hkk
      exact hstore (r.metadata.mechanicId, st) (storeGet_mem hg) _ ho

/-- Candidates surviving the fallback substitution inherit positive metadata
orders from the provider output or from the store. -/
theorem postFallback_meta_pos {store : MechanicStore} (query : String)
    (options : SearchOptions) {raw0 : List VectorMatch}
    (hstore : ∀ kv ∈ store, ∀ k : Int, kv.2.encounter.order = some k → 0 < k)
    (hmetaRaw : ∀ r ∈ raw0, ∀ k : Int, r.metadata.encounterOrder = some k → 0 < k) :
    ∀ r ∈ (postFallback store query options raw0).1, ∀ k : Int,
      r.metadata.encounterOrder = some k → 0 < k := by
  intro r hr k hk
  rw [postFallback_fst] at hr
  by_cases hc : (raw0.isEmpty && dungeonTruthy options) = true
  · rw [if_pos hc] at hr
    obtain ⟨_, kv, hkv, _, hreq⟩ := mem_fallbackCandidates hr
    subst hreq
    exact hstore kv hkv k (by simpa [metadataOf] using hk)
  · rw [if_neg hc] at hr
    exact hmetaRaw r hr k hk

/-- C10: on a "final boss"/"last boss"/"final encounter" query with a
collection filter, if no store entry of that collection passes the order scan
(defined non-zero order, boss-type when boss-restricted), the target is set
to 0 rather than left unresolved, so every candidate with a defined resolved
encounter order is dropped and only candidates with no defined resolved order
appear in the result. Store and metadata orders are assumed positive, as the
data model documents (orders are 1, 2, 3, ...). -/
theorem final_boss_unmatched_scan_gives_target_zero (store : MechanicStore)
    (embed : String → List ℚ) (search : List ℚ → SearchOptions → List VectorMatch)
    (query : String) (options : SearchOptions) (d : String)
    (hq : isFinalBossQueryOf query = true)
    (hd : dungeonNameOf options = some d) (hne : d ≠ "")
    (hscan : ∀ kv ∈ store,
        (kv.2.dungeonRaid.name == d && orderTruthy kv.2.encounter.order) = true →
        (isBossQueryFlag query == some true && kv.2.encounter.type != "boss") = true)
    (hstore : ∀ kv ∈ store, ∀ k : Int, kv.2.encounter.order = some k → 0 < k)
    (hmeta : ∀ r ∈ search (embed query) (searchOptionsOf options), ∀ k : Int,
        r.metadata.encounterOrder = some k → 0 < k) :
    (postFallback store query options (search (embed query) (searchOptionsOf options))).2.2
        = some 0
    ∧ (∀ r ∈ (postFallback store query options
          (search (embed query) (searchOptionsOf options))).1,
        ∀ k : Int, resolvedOrder store r = some k →
          processOne store query (some 0)
            (postFallback store query options
              (search (embed query) (searchOptionsOf options))).2.1 r = none)
    ∧ ∀ sr ∈ retrieveRelevantMechanics store embed search query options,
        ∃ r, r ∈ (postFallback store query options
              (search (embed query) (searchOptionsOf options))).1
          ∧ resolvedOrder store r = none := by
  have hpre : preTarget store query options
      = (maxOrderScan store query d, some (maxOrderScan store query d)) :=
    preTarget_final_boss hq hd hne
  rw [maxOrderScan_eq_zero hscan] at hpre
  obtain ⟨hm, ht⟩ := postFallback_target_some
    (search (embed query) (searchOptionsOf options)) hpre
  have hposMeta := postFallback_meta_pos query options hstore hmeta
  refine ⟨ht, ?_, ?_⟩
  · intro r hr k hk
    have hkpos : 0 < k := resolvedOrder_pos hstore (hposMeta r hr) k hk
    exact processOne_drop hk hkpos.ne'
  · intro sr hsr
    unfold retrieveRelevantMechanics retrieveStage2 at hsr
    obtain ⟨b, r, hr, hpr⟩ := mem_retrieveCore hsr
    rw [ht] at hpr
    refine ⟨r, hr, ?_⟩
    rcases processOne_some_target_char hpr with ⟨h1, _⟩ | ⟨h1, _⟩
    · exact absurd (resolvedOrder_pos hstore (hposMeta r hr) 0 h1) (lt_irrefl 0)
    · exact h1

/-- Witness for C10: a "final boss" query over a store whose only entry for
the collection has no defined order; the target resolves to 0. -/
theorem final_boss_unmatched_scan_witness :
    isFinalBossQueryOf "final boss" = true
    ∧ (postFallback storeNoOrder "final boss" optsD []).2.2 = some 0 :=
  ⟨by decide,
   (final_boss_unmatched_scan_gives_target_zero storeNoOrder (fun _ => [])
     (fun _ _ => []) "final boss" optsD "D" (by decide) (by decide) (by decide)
     (by decide) (by decide) (by decide)).1⟩

end DungeonHelper
